import Mathlib

set_option maxHeartbeats 1000000
set_option maxRecDepth 100000

namespace OpenscadViewer

/-- An exact rational value carried as an unreduced fraction with a
positive denominator.  Kept unreduced so that every operation is a plain
integer computation. -/
structure Q where
  num : ℤ
  den : ℕ
  dpos : 0 < den

instance : DecidableEq Q := fun a b =>
  if h : a.num = b.num ∧ a.den = b.den then
    isTrue (by cases a; cases b; simp_all)
  else isFalse (by intro he; cases he; simp_all)

instance : Repr Q where
  reprPrec q _ := repr (q.num, q.den)

/-- Exact comparison of two fractions by cross multiplication. -/
def qle (a b : Q) : Bool := decide (a.num * (b.den : ℤ) ≤ b.num * (a.den : ℤ))

/-- Value of an IEEE-754 number as observed by the JavaScript runtime:
a finite value (represented exactly), one of the two infinities, or
NaN. -/
inductive F where
  | finite (q : Q)
  | posInf
  | negInf
  | nan
deriving DecidableEq, Repr

/-- Decode four bytes (in little-endian order, as read by
`buffer.readFloatLE`) as an IEEE-754 binary32 value.  Every finite
binary32 value is an integer multiple of 2 to the power -149, so the
magnitude is carried over the fixed denominator 2 to the power 150:
a normal value is (2^23 + frac) * 2^expo over it, a subnormal value is
frac * 2 over it. -/
def decode32 (b0 b1 b2 b3 : Nat) : F :=
  let bits : Nat := b0 + 256 * b1 + 65536 * b2 + 16777216 * b3
  let sign : Nat := bits / 2 ^ 31 % 2
  let expo : Nat := bits / 2 ^ 23 % 256
  let frac : Nat := bits % 2 ^ 23
  if expo = 255 then
    if frac = 0 then (if sign = 1 then F.negInf else F.posInf) else F.nan
  else
    let mag : ℤ :=
      if expo = 0 then (frac : ℤ) * 2
      else ((2 ^ 23 + frac : Nat) : ℤ) * 2 ^ expo
    F.finite ⟨if sign = 1 then -mag else mag, 2 ^ 150, by positivity⟩

/-- Comparison on runtime numbers: the standard IEEE order on non-NaN
values; NaN compares false against everything. -/
def fle : F → F → Bool
  | F.nan, _ => false
  | _, F.nan => false
  | F.negInf, _ => true
  | _, F.posInf => true
  | F.posInf, _ => false
  | F.finite _, F.negInf => false
  | F.finite a, F.finite b => qle a b

/-- `Math.min` of two runtime numbers (NaN-propagating; the sign of zero
is not observable at the rational level). -/
def jsMin (a b : F) : F :=
  if a = F.nan ∨ b = F.nan then F.nan
  else if fle a b then a else b

/-- `Math.max` of two runtime numbers (NaN-propagating). -/
def jsMax (a b : F) : F :=
  if a = F.nan ∨ b = F.nan then F.nan
  else if fle a b then b else a

/-- The six running min/max cells of `parseStlBoundingBox` (`min[0..2]`
and `max[0..2]`), which are also the shape of its result. -/
structure BBox where
  min0 : F
  min1 : F
  min2 : F
  max0 : F
  max1 : F
  max2 : F
deriving DecidableEq, Repr

/-- Initial accumulator: `min = [∞, ∞, ∞]`, `max = [-∞, -∞, -∞]`. -/
def initBox : BBox :=
  ⟨F.posInf, F.posInf, F.posInf, F.negInf, F.negInf, F.negInf⟩

/-- One vertex folded into the running bounds (the six
`Math.min`/`Math.max` updates of the scan). -/
def scanStep (acc : BBox) (v : F × F × F) : BBox :=
  ⟨jsMin acc.min0 v.1, jsMin acc.min1 v.2.1, jsMin acc.min2 v.2.2,
   jsMax acc.max0 v.1, jsMax acc.max1 v.2.1, jsMax acc.max2 v.2.2⟩

/-- A Node `Buffer` is modelled as its list of byte values. -/
abbrev Buf := List Nat

def byteAt (buf : Buf) (i : Nat) : Nat := buf.getD i 0

/-- `buffer.readUInt32LE i`. -/
def readUInt32LE (buf : Buf) (i : Nat) : Nat :=
  byteAt buf i + 256 * byteAt buf (i + 1) + 65536 * byteAt buf (i + 2) +
    16777216 * byteAt buf (i + 3)

/-- `buffer.readFloatLE i`. -/
def readFloatLE (buf : Buf) (i : Nat) : F :=
  decode32 (byteAt buf i) (byteAt buf (i + 1)) (byteAt buf (i + 2))
    (byteAt buf (i + 3))

/-- The vertex triples visited by the binary scan, in loop order: for each
triangle `i < n`, the three vertices at offset `84 + i*50 + 12 + v*12`
(the 12-byte face normal is skipped). -/
def vertexList (buf : Buf) (n : Nat) : List (F × F × F) :=
  (List.range n).flatMap fun i =>
    (List.range 3).map fun v =>
      (readFloatLE buf (84 + i * 50 + 12 + v * 12),
       readFloatLE buf (84 + i * 50 + 12 + v * 12 + 4),
       readFloatLE buf (84 + i * 50 + 12 + v * 12 + 8))

/-- WHATWG UTF-8 decoding with U+FFFD replacement, as performed by
`buffer.toString('utf8')`.  The fuel argument is an upper bound on the
number of decoding steps; each step consumes at least one byte, so the
byte count suffices. -/
def utf8DecodeAux : Nat → List Nat → List Char
  | 0, _ => []
  | _ + 1, [] => []
  | fuel + 1, b :: rest =>
    if b < 0x80 then Char.ofNat b :: utf8DecodeAux fuel rest
    else if 0xc2 ≤ b ∧ b ≤ 0xdf then
      match rest with
      | [] => [Char.ofNat 0xfffd]
      | b1 :: rest1 =>
        if 0x80 ≤ b1 ∧ b1 ≤ 0xbf then
          Char.ofNat ((b - 0xc0) * 64 + (b1 - 0x80)) :: utf8DecodeAux fuel rest1
        else Char.ofNat 0xfffd :: utf8DecodeAux fuel rest
    else if 0xe0 ≤ b ∧ b ≤ 0xef then
      let lo1 := if b = 0xe0 then 0xa0 else 0x80
      let hi1 := if b = 0xed then 0x9f else 0xbf
      match rest with
      | [] => [Char.ofNat 0xfffd]
      | b1 :: rest1 =>
        if lo1 ≤ b1 ∧ b1 ≤ hi1 then
          match rest1 with
          | [] => Char.ofNat 0xfffd :: utf8DecodeAux fuel rest1
          | b2 :: rest2 =>
            if 0x80 ≤ b2 ∧ b2 ≤ 0xbf then
              Char.ofNat ((b - 0xe0) * 4096 + (b1 - 0x80) * 64 + (b2 - 0x80)) ::
                utf8DecodeAux fuel rest2
            else Char.ofNat 0xfffd :: utf8DecodeAux fuel rest1
        else Char.ofNat 0xfffd :: utf8DecodeAux fuel rest
    else if 0xf0 ≤ b ∧ b ≤ 0xf4 then
      let lo1 := if b = 0xf0 then 0x90 else 0x80
      let hi1 := if b = 0xf4 then 0x8f else 0xbf
      match rest with
      | [] => [Char.ofNat 0xfffd]
      | b1 :: rest1 =>
        if lo1 ≤ b1 ∧ b1 ≤ hi1 then
          match rest1 with
          | [] => Char.ofNat 0xfffd :: utf8DecodeAux fuel rest1
          | b2 :: rest2 =>
            if 0x80 ≤ b2 ∧ b2 ≤ 0xbf then
              match rest2 with
              | [] => Char.ofNat 0xfffd :: utf8DecodeAux fuel rest2
              | b3 :: rest3 =>
                if 0x80 ≤ b3 ∧ b3 ≤ 0xbf then
                  Char.ofNat ((b - 0xf0) * 262144 + (b1 - 0x80) * 4096 +
                      (b2 - 0x80) * 64 + (b3 - 0x80)) :: utf8DecodeAux fuel rest3
                else Char.ofNat 0xfffd :: utf8DecodeAux fuel rest2
            else Char.ofNat 0xfffd :: utf8DecodeAux fuel rest1
        else Char.ofNat 0xfffd :: utf8DecodeAux fuel rest
    else Char.ofNat 0xfffd :: utf8DecodeAux fuel rest

/-- `buffer.toString('utf8')`. -/
def utf8Decode (buf : Buf) : List Char := utf8DecodeAux (buf.length + 1) buf

/-- JavaScript whitespace character class `\s`. -/
def isJsWS (c : Char) : Bool :=
  c.toNat == 9 || c.toNat == 10 || c.toNat == 11 || c.toNat == 12 ||
  c.toNat == 13 || c.toNat == 32 || c.toNat == 160 || c.toNat == 0x1680 ||
  (decide (0x2000 ≤ c.toNat) && decide (c.toNat ≤ 0x200a)) ||
  c.toNat == 0x2028 || c.toNat == 0x2029 || c.toNat == 0x202f ||
  c.toNat == 0x205f || c.toNat == 0x3000 || c.toNat == 0xfeff

/-- The numeric-token character class of the vertex regular expression,
literally the set `[-\d.eE+]`. -/
def isTokChar (c : Char) : Bool :=
  c == '-' || c == '+' || c == '.' || c == 'e' || c == 'E' ||
  (decide ('0' ≤ c) && decide (c ≤ '9'))

/-- Greedy match of `vertex\s+T\s+T\s+T` (where `T = [-\d.eE+]+`) at the
head of `cs`.  The classes `\s` and `T` are disjoint, so greedy matching
without backtracking is exactly the regular-expression semantics.  Returns
the three captured tokens and the rest of the text after the match. -/
def matchVertexAt (cs : List Char) :
    Option ((List Char × List Char × List Char) × List Char) :=
  match cs with
  | 'v' :: 'e' :: 'r' :: 't' :: 'e' :: 'x' :: rest0 =>
    let ws1 := rest0.takeWhile isJsWS
    let r1 := rest0.dropWhile isJsWS
    let t1 := r1.takeWhile isTokChar
    let r2 := r1.dropWhile isTokChar
    let ws2 := r2.takeWhile isJsWS
    let r3 := r2.dropWhile isJsWS
    let t2 := r3.takeWhile isTokChar
    let r4 := r3.dropWhile isTokChar
    let ws3 := r4.takeWhile isJsWS
    let r5 := r4.dropWhile isJsWS
    let t3 := r5.takeWhile isTokChar
    let r6 := r5.dropWhile isTokChar
    if ws1 ≠ [] ∧ t1 ≠ [] ∧ ws2 ≠ [] ∧ t2 ≠ [] ∧ ws3 ≠ [] ∧ t3 ≠ [] then
      some ((t1, t2, t3), r6)
    else none
  | _ => none

/-- All matches of the vertex regular expression over the text: leftmost
and non-overlapping, the `lastIndex` discipline of `re.exec` with the `g`
flag.  Fuel-bounded recursion; every step consumes at least one character,
so the text length suffices as fuel. -/
def vertexMatches : Nat → List Char → List (List Char × List Char × List Char)
  | 0, _ => []
  | _ + 1, [] => []
  | fuel + 1, c :: tl =>
    match matchVertexAt (c :: tl) with
    | some (toks, rest) => toks :: vertexMatches fuel rest
    | none => vertexMatches fuel tl

def digitVal (c : Char) : Nat := c.toNat - 48

/-- Read a maximal run of decimal digits: accumulated value, number of
digits read, rest of the input. -/
def readDigits : List Char → Nat → Nat → Nat × Nat × List Char
  | [], acc, k => (acc, k, [])
  | c :: tl, acc, k =>
    if decide ('0' ≤ c) && decide (c ≤ '9') then
      readDigits tl (acc * 10 + digitVal c) (k + 1)
    else (acc, k, c :: tl)

/-- `parseFloat` applied to a token drawn from the class `[-\d.eE+]+`:
an optional sign, a decimal significand with at least one digit, and an
optional exponent part; NaN when no digit is readable.  The value
sign * (intpart + fracpart / 10^fracdigits) * 10^exponent is kept as an
exact fraction (the float64 rounding of the text path is immaterial to
the properties proved in this development and is not modelled). -/
def jsParseFloat (tok : List Char) : F :=
  let sgncs : ℤ × List Char :=
    match tok with
    | '-' :: tl => (-1, tl)
    | '+' :: tl => (1, tl)
    | _ => (1, tok)
  let ipr := readDigits sgncs.2 0 0
  let fpr :=
    match ipr.2.2 with
    | '.' :: tl => readDigits tl 0 0
    | _ => (0, 0, ipr.2.2)
  if ipr.2.1 + fpr.2.1 = 0 then F.nan
  else
    let mantNum : ℤ := sgncs.1 * (ipr.1 * 10 ^ fpr.2.1 + fpr.1)
    let mantDen : ℕ := 10 ^ fpr.2.1
    let ex : ℤ :=
      match fpr.2.2 with
      | [] => 0
      | c :: tl =>
        if c = 'e' ∨ c = 'E' then
          let estl : ℤ × List Char :=
            match tl with
            | '-' :: u => (-1, u)
            | '+' :: u => (1, u)
            | _ => (1, tl)
          let epr := readDigits estl.2 0 0
          if epr.2.1 = 0 then 0 else estl.1 * (epr.1 : ℤ)
        else 0
    F.finite
      (match ex with
      | Int.ofNat e => ⟨mantNum * 10 ^ e, mantDen, by positivity⟩
      | Int.negSucc e => ⟨mantNum, mantDen * 10 ^ (e + 1), by positivity⟩)

/-- The text-fallback scan: decode the buffer as UTF-8 text, find every
vertex match, parse the three captured tokens and fold them into the
accumulator the binary attempt left behind (the source folds into the
same `min`/`max` arrays in both phases). -/
def asciiFold (buf : Buf) (acc : BBox) : BBox :=
  let text := utf8Decode buf
  (vertexMatches text.length text).foldl
    (fun a toks =>
      scanStep a (jsParseFloat toks.1, jsParseFloat toks.2.1, jsParseFloat toks.2.2))
    acc

/-- `parseStlBoundingBox` (src/index.js lines 58-95): try the binary
encoding first (length at least 84, declared triangle count positive and
consistent with the length), return its bounds if the running x-minimum
moved off the `Infinity` sentinel, otherwise fall through to the text
scan, which folds into the cells the binary attempt already touched. -/
def parseStlBoundingBox (buf : Buf) : BBox :=
  if 84 ≤ buf.length then
    let n := readUInt32LE buf 80
    if 0 < n ∧ 84 + n * 50 ≤ buf.length then
      let acc := (vertexList buf n).foldl scanStep initBox
      if acc.min0 ≠ F.posInf then acc
      else asciiFold buf acc
    else asciiFold buf initBox
  else asciiFold buf initBox

-- ---------------------------------------------------------------------------
-- Derived views of the binary scan
-- ---------------------------------------------------------------------------

/-- The accumulator produced by the binary scan alone. -/
def scanAcc (buf : Buf) (n : Nat) : BBox :=
  (vertexList buf n).foldl scanStep initBox

/-- First-axis coordinates visited by the binary scan, in order. -/
def xCoords (buf : Buf) (n : Nat) : List F :=
  (vertexList buf n).map fun v => v.1

/-- Second-axis coordinates visited by the binary scan, in order. -/
def yCoords (buf : Buf) (n : Nat) : List F :=
  (vertexList buf n).map fun v => v.2.1

/-- Third-axis coordinates visited by the binary scan, in order. -/
def zCoords (buf : Buf) (n : Nat) : List F :=
  (vertexList buf n).map fun v => v.2.2

/-- Premise of the Encoding-A scan: the buffer passes the length check,
the declared triangle count is positive and the size check passes, so the
scan runs (and, the count being positive, visits at least one vertex). -/
abbrev scanRunsA (buf : Buf) : Prop :=
  84 ≤ buf.length ∧ 0 < readUInt32LE buf 80 ∧
    84 + readUInt32LE buf 80 * 50 ≤ buf.length

/-- `m` equals the true minimum of the list in value: some member lies
at or below `m`, and `m` lies at or below every member. -/
abbrev isMinOf (m : F) (l : List F) : Prop :=
  (∃ c ∈ l, fle c m = true) ∧ ∀ c ∈ l, fle m c = true

/-- `m` equals the true maximum of the list in value: some member lies
at or above `m`, and every member lies at or below `m`. -/
abbrev isMaxOf (m : F) (l : List F) : Prop :=
  (∃ c ∈ l, fle m c = true) ∧ ∀ c ∈ l, fle c m = true

-- ---------------------------------------------------------------------------
-- Concrete buffers used as witnesses and counterexamples
-- ---------------------------------------------------------------------------

/-- Bytes of an ASCII string. -/
def strBytes (s : String) : Buf := s.toList.map Char.toNat

/-- Little-endian float32 bytes of 1.0. -/
def f32One : List Nat := [0, 0, 128, 63]

/-- Little-endian float32 bytes of 10.0. -/
def f32Ten : List Nat := [0, 0, 32, 65]

/-- Little-endian float32 bytes of positive infinity. -/
def f32Inf : List Nat := [0, 0, 128, 127]

/-- A 50-byte Encoding-A record: 12-byte normal, 36 vertex bytes and the
2-byte attribute count. -/
def triRecord (vbytes : List Nat) : List Nat :=
  List.replicate 12 0 ++ vbytes ++ [0, 0]

/-- A well-formed one-triangle binary mesh with vertices (1,2,3), (4,5,6)
and (7,8,9). -/
def stlWitnessBuf : Buf :=
  List.replicate 80 0 ++ [1, 0, 0, 0] ++
  triRecord ([0, 0, 128, 63] ++ [0, 0, 0, 64] ++ [0, 0, 64, 64] ++
    [0, 0, 128, 64] ++ [0, 0, 160, 64] ++ [0, 0, 192, 64] ++
    [0, 0, 224, 64] ++ [0, 0, 0, 65] ++ [0, 0, 16, 65])

/-- A buffer passing the Encoding-A checks whose x-coordinates are all +∞
and whose 80-byte header contains the text `vertex 9 9 9`: the binary scan
runs but leaves `min[0]` at `Infinity`, and the text fallback then folds
the phantom header vertex into the partially-filled cells. -/
def stlInfHeader9 : Buf :=
  strBytes "vertex 9 9 9" ++ List.replicate 68 0 ++ [1, 0, 0, 0] ++
  triRecord (f32Inf ++ f32Ten ++ f32Ten ++ f32Inf ++ f32Ten ++ f32Ten ++
    f32Inf ++ f32Ten ++ f32Ten)

/-- Same shape with header text `vertex 7 7 7` and y, z coordinates 1.0,
used to exhibit the fallback running after a completed binary scan. -/
def stlInfHeader7 : Buf :=
  strBytes "vertex 7 7 7" ++ List.replicate 68 0 ++ [1, 0, 0, 0] ++
  triRecord (f32Inf ++ f32One ++ f32One ++ f32Inf ++ f32One ++ f32One ++
    f32Inf ++ f32One ++ f32One)

-- ---------------------------------------------------------------------------
-- Server model: events, state, environment
-- ---------------------------------------------------------------------------

/-- Broadcast events emitted to the renderer peers. -/
inductive Event where
  | modelUpdated
  | fileInfo (filename : String)
  | errorMsg (message : String)
deriving DecidableEq, Repr

/-- The module-level mutable state (src/index.js lines 23-28).  The
watcher is modelled by the list of paths it watches. -/
structure ServerState where
  currentFile : Option String
  currentStlPath : Option String
  currentStlBuffer : Option Buf
  lastBoundingBox : Option BBox
  watcher : Option (List String)
deriving DecidableEq, Repr

/-- The process environment as the synchronization core observes it:
filesystem contents (covering `existsSync`, `readFileSync`, `fsp.readFile`
and `statSync`, whose size is the content length), availability of the
external tool, the outcome of invoking it on a source path (a diagnostic
on failure, from stderr or the generic message), and the platform path
services `path.resolve`, modelled as opaque environment functions. -/
structure Env where
  files : String → Option Buf
  scadOk : Bool
  compileOut : String → Option String
  resolvePath : String → String
  resolveRel : String → String → String
  tmpdir : String

/-- Decimal digit character. -/
def digitChar (n : Nat) : Char := Char.ofNat (48 + n)

/-- Decimal digits of a number, most significant first.  Fuel-bounded
recursion; dividing by ten strictly decreases the argument, so any fuel
above the number itself suffices. -/
def natDigitsAux : Nat → Nat → List Char
  | 0, _ => []
  | fuel + 1, n =>
    if n < 10 then [digitChar n]
    else natDigitsAux fuel (n / 10) ++ [digitChar (n % 10)]

/-- Decimal digits of a number, most significant first. -/
def natDigits (n : Nat) : List Char := natDigitsAux (n + 1) n

/-- Decimal rendering of a nonnegative integer, as the template
interpolation of `Date.now()` renders it. -/
def natToString (n : Nat) : String := String.mk (natDigits n)

/-- Value of a digit string, a left inverse of `natDigits`. -/
def digitsToNat (cs : List Char) : Nat :=
  cs.foldl (fun a c => a * 10 + digitVal c) 0

/-- The temporary artifact path chosen by `compileScad`:
`path.join` of `os.tmpdir()` and `openscad-viewer-` followed by the
millisecond timestamp `Date.now()` and the `.stl` suffix. -/
def tmpStlPath (env : Env) (now : Nat) : String :=
  env.tmpdir ++ "/openscad-viewer-" ++ natToString now ++ ".stl"

/-- Result record of `compileScad` (fields `stlPath` and `error`). -/
structure CompileResult where
  stlPath : Option String
  diag : Option String
deriving DecidableEq, Repr

/-- `compileScad` (lines 44-52): choose the timestamp-derived temporary
path, invoke the tool, and return either the path or the diagnostic.
`now` is the value of `Date.now()` at this invocation. -/
def compileScad (env : Env) (now : Nat) (scadPath : String) : CompileResult :=
  match env.compileOut scadPath with
  | none => ⟨some (tmpStlPath env now), none⟩
  | some d => ⟨none, some d⟩

/-- ASCII lowercasing, as `toLowerCase` acts on the extensions in play. -/
def toLowerAscii (s : String) : String :=
  String.mk (s.toList.map fun c =>
    if decide (Char.ofNat 65 ≤ c) && decide (c ≤ Char.ofNat 90) then
      Char.ofNat (c.toNat + 32)
    else c)

/-- Characters of the last path segment (after the last separator). -/
def basenameChars (s : String) : List Char :=
  s.toList.foldl (fun acc c => if c = Char.ofNat 47 then [] else acc ++ [c]) []

/-- `path.basename`. -/
def basenameOf (s : String) : String := String.mk (basenameChars s)

/-- `path.extname`: from the last dot of the basename to the end; empty
when the basename has no dot or only a leading dot. -/
def extnameOf (s : String) : String :=
  let base := basenameChars s
  match base.reverse.findIdx? (fun c => c == Char.ofNat 46) with
  | none => ""
  | some k =>
    let j := base.length - 1 - k
    if 1 ≤ j then String.mk (base.drop j) else ""

/-- The extension test used throughout the source:
`path.extname(p).toLowerCase()`. -/
def lowerExt (p : String) : String := toLowerAscii (extnameOf p)

/-- Greedy match of the dependency pattern `include` or `use`, optional
whitespace, then an angle-bracketed nonempty path, at the head of `cs`.
Returns the captured path and the rest of the text. -/
def matchIncludeAt (cs : List Char) : Option (List Char × List Char) :=
  let kw : Option (List Char) :=
    match cs with
    | 'i' :: 'n' :: 'c' :: 'l' :: 'u' :: 'd' :: 'e' :: r => some r
    | 'u' :: 's' :: 'e' :: r => some r
    | _ => none
  match kw with
  | none => none
  | some r0 =>
    let r1 := r0.dropWhile isJsWS
    match r1 with
    | '<' :: r2 =>
      let tok := r2.takeWhile (fun c => c != '>')
      let r3 := r2.dropWhile (fun c => c != '>')
      match r3 with
      | '>' :: r4 => if tok ≠ [] then some (tok, r4) else none
      | _ => none
    | _ => none

/-- All dependency matches over the text, leftmost and non-overlapping
(the `lastIndex` discipline of `re.exec` with the `g` flag). -/
def includeMatches : Nat → List Char → List (List Char)
  | 0, _ => []
  | _ + 1, [] => []
  | fuel + 1, c :: tl =>
    match matchIncludeAt (c :: tl) with
    | some (tok, rest) => tok :: includeMatches fuel rest
    | none => includeMatches fuel tl

/-- `parseScadDependencies` (lines 101-115): read the source text, collect
every dependency reference, resolve each against the directory of the
source file and keep those that exist on disk; an unreadable source yields
the empty list. -/
def parseScadDependencies (env : Env) (scadPath : String) : List String :=
  match env.files scadPath with
  | none => []
  | some bytes =>
    let text := utf8Decode bytes
    ((includeMatches text.length text).map
        fun rel => env.resolveRel scadPath (String.mk rel)).filter
      fun dep => (env.files dep).isSome

/-- The watch set installed by `setupWatcher` (lines 158-166): the file
itself plus, for a compiled source, its scanned dependencies. -/
def watchSet (env : Env) (filePath : String) : List String :=
  if lowerExt filePath = ".scad" then
    filePath :: parseScadDependencies env filePath
  else [filePath]

/-- The half of `handleFileChange` that runs after `await compileScad`
returns (lines 182-199 of the compiled branch): reinstall the watcher
from the current file as it stands at resumption, then either broadcast
the compile error and stop, or commit the fresh artifact, bounding box
and path and broadcast the model update. -/
def hfcAfterCompile (env : Env) (now : Nat) (st : ServerState)
    (compiledFor : String) : ServerState × List Event :=
  let result := compileScad env now compiledFor
  let cf := st.currentFile.getD compiledFor
  let st1 := { st with watcher := some (watchSet env cf) }
  match result.diag with
  | some d => (st1, [Event.errorMsg d])
  | none =>
    let stlPath := result.stlPath.getD ""
    let bytes := (env.files stlPath).getD []
    ({ st1 with
        currentStlPath := some stlPath,
        currentStlBuffer := some bytes,
        lastBoundingBox := some (parseStlBoundingBox bytes) },
      [Event.modelUpdated])

/-- `handleFileChange` (lines 175-199), the watch-triggered
resynchronization run without interleaving.  `now` is the `Date.now()`
observed by the inner `compileScad` call.  The current file is non-null
whenever a watcher exists, so the `none` branch is unreachable. -/
def handleFileChange (env : Env) (now : Nat) (st : ServerState) :
    ServerState × List Event :=
  match st.currentFile with
  | none => (st, [])
  | some f =>
    if lowerExt f = ".scad" then hfcAfterCompile env now st f
    else
      let bytes := (env.files f).getD []
      ({ st with
          currentStlBuffer := some bytes,
          lastBoundingBox := some (parseStlBoundingBox bytes) },
        [Event.modelUpdated])

/-- The success record returned by `openFile`. -/
structure OpenResult where
  success : Bool
  file : String
  fileSize : Nat
  boundingBox : BBox
deriving DecidableEq, Repr

/-- `openFile` (lines 205-245): resolve the path, validate existence and
extension, for a compiled source check the tool and compile, load the
artifact bytes, then commit the whole model state, reinstall the watcher
and broadcast.  Returns the thrown error or the success record, the
updated state and the emitted broadcasts.  `now` is the `Date.now()`
observed by `compileScad`. -/
def openFile (env : Env) (now : Nat) (st : ServerState) (filePath : String) :
    Except String OpenResult × ServerState × List Event :=
  let absPath := env.resolvePath filePath
  match env.files absPath with
  | none => (Except.error ("File not found: " ++ absPath), st, [])
  | some srcBytes =>
    let ext := lowerExt absPath
    if ext ≠ ".scad" ∧ ext ≠ ".stl" then
      (Except.error ("Unsupported file type: " ++ ext ++
        ". Only .scad and .stl are supported."), st, [])
    else
      let loaded : Except String (String × Buf) :=
        if ext = ".scad" then
          if env.scadOk = false then
            Except.error "OpenSCAD is not installed or not found on $PATH"
          else
            match compileScad env now absPath with
            | ⟨_, some d⟩ =>
              Except.error ("OpenSCAD compilation failed:\n" ++ d)
            | ⟨p, none⟩ =>
              let stlPath := p.getD ""
              Except.ok (stlPath, (env.files stlPath).getD [])
        else Except.ok (absPath, srcBytes)
      match loaded with
      | Except.error e => (Except.error e, st, [])
      | Except.ok (stlPath, bytes) =>
        let bb := parseStlBoundingBox bytes
        (Except.ok ⟨true, absPath, srcBytes.length, bb⟩,
         { currentFile := some absPath,
           currentStlPath := some stlPath,
           currentStlBuffer := some bytes,
           lastBoundingBox := some bb,
           watcher := some (watchSet env absPath) },
         [Event.modelUpdated, Event.fileInfo (basenameOf absPath)])

-- ---------------------------------------------------------------------------
-- Peer channel: sendAndWait and the pending-request table
-- ---------------------------------------------------------------------------

/-- Outcome of the synchronous part of `sendAndWait`. -/
inductive SendOutcome where
  | sent (requestId : Nat)
  | rejectedNoBrowser (message : String)
deriving DecidableEq, Repr

/-- `Map.set` on the table of live request identifiers. -/
def tableInsert (t : List Nat) (id : Nat) : List Nat :=
  if id ∈ t then t else id :: t

/-- `Map.delete` on the table of live request identifiers. -/
def tableDelete (t : List Nat) (id : Nat) : List Nat :=
  t.filter fun x => x != id

/-- `sendAndWait` up to its first suspension (lines 128-152): allocate
the next identifier, arm the timer, register the table entry, then send
to the first client whose transport is open (`readyState === 1`); when
none is ready, disarm the timer, delete the entry and reject at once.
Clients are modelled by their ready states.  Returns the outcome, the new
counter and the new table. -/
def sendAndWait (clients : List Nat) (counter : Nat) (table : List Nat) :
    SendOutcome × Nat × List Nat :=
  let requestId := counter + 1
  let table1 := tableInsert table requestId
  match clients.find? (fun c => c == 1) with
  | some _ => (SendOutcome.sent requestId, requestId, table1)
  | none =>
    (SendOutcome.rejectedNoBrowser "No browser connected", requestId,
      tableDelete table1 requestId)

/-- Completion of the promise behind one pending request. -/
inductive ReqOutcome where
  | success (payload : Nat)
  | timedOutErr
deriving DecidableEq, Repr

/-- Lifecycle state of a single pending-request entry: whether its
identifier is still in the table, whether its timer is still armed, and
how (if at all) its promise has completed. -/
structure ReqState where
  pending : Bool
  timerOn : Bool
  settled : Option ReqOutcome
deriving DecidableEq, Repr

/-- Events that can touch one entry: an inbound socket message carrying
its identifier, or its timer firing. -/
inductive ReqEvent where
  | inbound (payload : Nat)
  | timerFire
deriving DecidableEq, Repr

/-- A freshly registered entry: in the table, timer armed, promise
unsettled. -/
def reqInit : ReqState := ⟨true, true, none⟩

/-- One event against one entry, following the source: the socket message
handler resolves only identifiers present in the table (line 309); the
registered resolve callback clears the timer, deletes the entry and
settles the promise (line 139); the timer callback deletes the entry and
settles the promise with the timeout failure (lines 133-136); a promise
settles at most once, and a cleared timer never fires. -/
def reqStep (s : ReqState) : ReqEvent → ReqState
  | ReqEvent.inbound p =>
    if s.pending then
      ⟨false, false, s.settled.orElse fun _ => some (ReqOutcome.success p)⟩
    else s
  | ReqEvent.timerFire =>
    if s.timerOn then
      ⟨false, false, s.settled.orElse fun _ => some ReqOutcome.timedOutErr⟩
    else s

/-- Run a sequence of events against one entry. -/
def reqRun (s : ReqState) (evs : List ReqEvent) : ReqState :=
  evs.foldl reqStep s

/-- The completion each event kind produces when it arrives first. -/
def reqOutcomeOf : ReqEvent → ReqOutcome
  | ReqEvent.inbound p => ReqOutcome.success p
  | ReqEvent.timerFire => ReqOutcome.timedOutErr

-- ---------------------------------------------------------------------------
-- Watcher debounce
-- ---------------------------------------------------------------------------

/-- The debounce loop of `setupWatcher` (lines 167-172), driven by the
ordered list of change-event times: a change clears any armed timer and
arms a new one 300 ms out; an armed timer whose deadline precedes the
next change fires, running the resynchronization handler once.  Returns
the times at which the handler runs. -/
def debounceRun : Option Nat → List Nat → List Nat
  | none, [] => []
  | some d, [] => [d]
  | none, t :: ts => debounceRun (some (t + 300)) ts
  | some d, t :: ts =>
    if d ≤ t then d :: debounceRun (some (t + 300)) ts
    else debounceRun (some (t + 300)) ts

/-- Handler run times for a list of change times, starting with no timer
armed. -/
def debounceFires (changes : List Nat) : List Nat := debounceRun none changes

-- ---------------------------------------------------------------------------
-- Interleaving of a watch-triggered resync with a fresh open
-- ---------------------------------------------------------------------------

/-- Steps of the interleaving model for the two asynchronous writers of
the model state.  `handleFileChange` suspends at `await compileScad`, so
it splits into a start half (capture the current file and its extension,
launch the compile) and a resume half (`hfcAfterCompile`, which reinstalls
the watcher from the file that is current at resumption and commits the
compile result).  `openRun` performs a complete `openFile` between the two
halves.  The `Date.now()` values are fixed per scenario. -/
inductive SyncAct where
  | hfcStart
  | hfcResume
  | openRun (filePath : String)
deriving DecidableEq, Repr

/-- The server state together with the source captured by a suspended
`handleFileChange`. -/
structure SyncState where
  server : ServerState
  pendingCompile : Option String
deriving DecidableEq, Repr

/-- One step of the interleaving model. -/
def syncStep (env : Env) (now : Nat) (s : SyncState) :
    SyncAct → SyncState × List Event
  | SyncAct.hfcStart =>
    match s.server.currentFile with
    | none => (s, [])
    | some f =>
      if lowerExt f = ".scad" then ({ s with pendingCompile := some f }, [])
      else
        let res := handleFileChange env now s.server
        ({ s with server := res.1 }, res.2)
  | SyncAct.hfcResume =>
    match s.pendingCompile with
    | none => (s, [])
    | some f =>
      let res := hfcAfterCompile env now s.server f
      ({ server := res.1, pendingCompile := none }, res.2)
  | SyncAct.openRun p =>
    let res := openFile env now s.server p
    ({ s with server := res.2.1 }, res.2.2)

/-- Run a sequence of interleaving steps, discarding the broadcasts. -/
def syncRun (env : Env) (now : Nat) (s : SyncState) (acts : List SyncAct) :
    SyncState :=
  acts.foldl (fun st a => (syncStep env now st a).1) s

-- ---------------------------------------------------------------------------
-- Concrete environments and states for witnesses and counterexamples
-- ---------------------------------------------------------------------------

/-- The empty server state at startup. -/
def st0 : ServerState := ⟨none, none, none, none, none⟩

/-- Environment for the stale-overwrite scenario: a compiled source
`/proj/a.scad` whose artifact holds byte 65, and a plain mesh `/b.stl`
holding byte 66.  The tool is available and compilation succeeds. -/
def envC9 : Env where
  files := fun p =>
    if p = "/proj/a.scad" then some (strBytes "cube(1);")
    else if p = "/b.stl" then some [66]
    else if p = "/tmp/openscad-viewer-1000.stl" then some [65]
    else none
  scadOk := true
  compileOut := fun _ => none
  resolvePath := fun p => p
  resolveRel := fun _ rel => rel
  tmpdir := "/tmp"

/-- Server state after a successful open of `/proj/a.scad`. -/
def st0C9 : ServerState :=
  { currentFile := some "/proj/a.scad",
    currentStlPath := some "/tmp/openscad-viewer-900.stl",
    currentStlBuffer := some [65],
    lastBoundingBox := some (parseStlBoundingBox [65]),
    watcher := some ["/proj/a.scad"] }

/-- A minimal environment used where only the temporary-path shape
matters. -/
def envTmp : Env where
  files := fun _ => none
  scadOk := true
  compileOut := fun _ => none
  resolvePath := fun p => p
  resolveRel := fun _ rel => rel
  tmpdir := "/tmp"

/-- Witness environment: a compiled source whose compilation fails with a
fixed diagnostic, a good source, and a plain mesh file. -/
def envW : Env where
  files := fun p =>
    if p = "/m/bad.scad" then some (strBytes "cube(")
    else if p = "/m/good.scad" then some (strBytes "cube(2);")
    else if p = "/m/part.stl" then some [65, 66]
    else if p = "/tmp/openscad-viewer-7.stl" then some [67]
    else none
  scadOk := true
  compileOut := fun p => if p = "/m/bad.scad" then some "ERROR: syntax error" else none
  resolvePath := fun p => p
  resolveRel := fun _ rel => rel
  tmpdir := "/tmp"

/-- Server state after a successful open of `/m/good.scad` in `envW`. -/
def stW : ServerState :=
  { currentFile := some "/m/good.scad",
    currentStlPath := some "/tmp/openscad-viewer-7.stl",
    currentStlBuffer := some [67],
    lastBoundingBox := some (parseStlBoundingBox [67]),
    watcher := some ["/m/good.scad"] }

/-- Server state whose current file is the failing source `/m/bad.scad`. -/
def stBad : ServerState := { stW with currentFile := some "/m/bad.scad" }

-- ---------------------------------------------------------------------------
-- Order lemmas for the runtime comparison
-- ---------------------------------------------------------------------------

lemma qle_refl (a : Q) : qle a a = true := by
  simp [qle]

lemma qle_trans {a b c : Q} (h1 : qle a b = true) (h2 : qle b c = true) :
    qle a c = true := by
  simp only [qle, decide_eq_true_eq] at h1 h2 ⊢
  have hb : (0 : ℤ) < (b.den : ℤ) := by exact_mod_cast b.dpos
  have ha : (0 : ℤ) ≤ (a.den : ℤ) := Int.ofNat_nonneg a.den
  have hc : (0 : ℤ) ≤ (c.den : ℤ) := Int.ofNat_nonneg c.den
  nlinarith [mul_le_mul_of_nonneg_right h1 hc, mul_le_mul_of_nonneg_right h2 ha]

lemma qle_total (a b : Q) : qle a b = true ∨ qle b a = true := by
  simp only [qle, decide_eq_true_eq]
  exact le_total _ _

lemma fle_refl (a : F) (h : a ≠ F.nan) : fle a a = true := by
  cases a <;> simp [fle, qle_refl] at h ⊢

lemma fle_trans {a b c : F} (hab : fle a b = true) (hbc : fle b c = true) :
    fle a c = true := by
  cases a <;> cases b <;> cases c <;> simp [fle] at hab hbc ⊢ <;>
    exact qle_trans hab hbc

lemma fle_total (a b : F) (ha : a ≠ F.nan) (hb : b ≠ F.nan) :
    fle a b = true ∨ fle b a = true := by
  cases a <;> cases b <;> simp [fle] at ha hb ⊢ <;> exact qle_total _ _

lemma eq_posInf_of_fle {x : F} (h : fle F.posInf x = true) : x = F.posInf := by
  cases x <;> simp [fle] at h ⊢

lemma eq_negInf_of_fle {x : F} (h : fle x F.negInf = true) : x = F.negInf := by
  cases x <;> simp [fle] at h ⊢

lemma jsMin_ne_nan {a b : F} (ha : a ≠ F.nan) (hb : b ≠ F.nan) :
    jsMin a b ≠ F.nan := by
  unfold jsMin
  rw [if_neg (show ¬(a = F.nan ∨ b = F.nan) by simp [ha, hb])]
  split <;> assumption

lemma jsMin_eq_or {a b : F} (ha : a ≠ F.nan) (hb : b ≠ F.nan) :
    jsMin a b = a ∨ jsMin a b = b := by
  unfold jsMin
  rw [if_neg (show ¬(a = F.nan ∨ b = F.nan) by simp [ha, hb])]
  split
  · exact Or.inl rfl
  · exact Or.inr rfl

lemma jsMin_fle_left {a b : F} (ha : a ≠ F.nan) (hb : b ≠ F.nan) :
    fle (jsMin a b) a = true := by
  unfold jsMin
  rw [if_neg (show ¬(a = F.nan ∨ b = F.nan) by simp [ha, hb])]
  split
  · exact fle_refl a ha
  · rcases fle_total a b ha hb with h | h
    · simp_all
    · exact h

lemma jsMin_fle_right {a b : F} (ha : a ≠ F.nan) (hb : b ≠ F.nan) :
    fle (jsMin a b) b = true := by
  unfold jsMin
  rw [if_neg (show ¬(a = F.nan ∨ b = F.nan) by simp [ha, hb])]
  split
  · assumption
  · exact fle_refl b hb

lemma jsMax_ne_nan {a b : F} (ha : a ≠ F.nan) (hb : b ≠ F.nan) :
    jsMax a b ≠ F.nan := by
  unfold jsMax
  rw [if_neg (show ¬(a = F.nan ∨ b = F.nan) by simp [ha, hb])]
  split <;> assumption

lemma jsMax_eq_or {a b : F} (ha : a ≠ F.nan) (hb : b ≠ F.nan) :
    jsMax a b = a ∨ jsMax a b = b := by
  unfold jsMax
  rw [if_neg (show ¬(a = F.nan ∨ b = F.nan) by simp [ha, hb])]
  split
  · exact Or.inr rfl
  · exact Or.inl rfl

lemma jsMax_fle_left {a b : F} (ha : a ≠ F.nan) (hb : b ≠ F.nan) :
    fle a (jsMax a b) = true := by
  unfold jsMax
  rw [if_neg (show ¬(a = F.nan ∨ b = F.nan) by simp [ha, hb])]
  split
  · assumption
  · exact fle_refl a ha

lemma jsMax_fle_right {a b : F} (ha : a ≠ F.nan) (hb : b ≠ F.nan) :
    fle b (jsMax a b) = true := by
  unfold jsMax
  rw [if_neg (show ¬(a = F.nan ∨ b = F.nan) by simp [ha, hb])]
  split
  · exact fle_refl b hb
  · rcases fle_total a b ha hb with h | h
    · simp_all
    · exact h

lemma foldl_jsMin_spec (l : List F) :
    ∀ a : F, a ≠ F.nan → (∀ x ∈ l, x ≠ F.nan) →
      (l.foldl jsMin a = a ∨ l.foldl jsMin a ∈ l) ∧
        fle (l.foldl jsMin a) a = true ∧
        ∀ x ∈ l, fle (l.foldl jsMin a) x = true := by
  induction l with
  | nil =>
    intro a ha _
    exact ⟨Or.inl rfl, fle_refl a ha, by simp⟩
  | cons x t ih =>
    intro a ha hl
    have hx : x ≠ F.nan := hl x (by simp)
    have ht : ∀ y ∈ t, y ≠ F.nan := fun y hy => hl y (by simp [hy])
    have hmn : jsMin a x ≠ F.nan := jsMin_ne_nan ha hx
    obtain ⟨hmem, hb, hall⟩ := ih (jsMin a x) hmn ht
    simp only [List.foldl_cons]
    refine ⟨?_, ?_, ?_⟩
    · rcases hmem with h | h
      · rcases jsMin_eq_or ha hx with h2 | h2
        · exact Or.inl (h.trans h2)
        · rw [h2] at h
          rw [h2]
          exact Or.inr (by simp [h])
      · exact Or.inr (by simp [h])
    · exact fle_trans hb (jsMin_fle_left ha hx)
    · intro y hy
      rcases List.mem_cons.mp hy with rfl | hy2
      · exact fle_trans hb (jsMin_fle_right ha hx)
      · exact hall y hy2

lemma foldl_jsMax_spec (l : List F) :
    ∀ a : F, a ≠ F.nan → (∀ x ∈ l, x ≠ F.nan) →
      (l.foldl jsMax a = a ∨ l.foldl jsMax a ∈ l) ∧
        fle a (l.foldl jsMax a) = true ∧
        ∀ x ∈ l, fle x (l.foldl jsMax a) = true := by
  induction l with
  | nil =>
    intro a ha _
    exact ⟨Or.inl rfl, fle_refl a ha, by simp⟩
  | cons x t ih =>
    intro a ha hl
    have hx : x ≠ F.nan := hl x (by simp)
    have ht : ∀ y ∈ t, y ≠ F.nan := fun y hy => hl y (by simp [hy])
    have hmx : jsMax a x ≠ F.nan := jsMax_ne_nan ha hx
    obtain ⟨hmem, hb, hall⟩ := ih (jsMax a x) hmx ht
    simp only [List.foldl_cons]
    refine ⟨?_, ?_, ?_⟩
    · rcases hmem with h | h
      · rcases jsMax_eq_or ha hx with h2 | h2
        · exact Or.inl (h.trans h2)
        · rw [h2] at h
          rw [h2]
          exact Or.inr (by simp [h])
      · exact Or.inr (by simp [h])
    · exact fle_trans (jsMax_fle_left ha hx) hb
    · intro y hy
      rcases List.mem_cons.mp hy with rfl | hy2
      · exact fle_trans (jsMax_fle_right ha hx) hb
      · exact hall y hy2

lemma foldl_jsMin_posInf_isMin (l : List F) (hne : l ≠ [])
    (hnan : ∀ x ∈ l, x ≠ F.nan) :
    isMinOf (l.foldl jsMin F.posInf) l := by
  obtain ⟨hmem, _, hall⟩ :=
    foldl_jsMin_spec l F.posInf (by simp) hnan
  have hrnan : l.foldl jsMin F.posInf ≠ F.nan := by
    rcases hmem with h | h
    · rw [h]; simp
    · exact hnan _ h
  have hmem2 : l.foldl jsMin F.posInf ∈ l := by
    rcases hmem with h | h
    · match l, hne with
      | c :: t, _ =>
        have hc := hall c (by simp)
        rw [h] at hc ⊢
        rw [eq_posInf_of_fle hc] at *
        simp
    · exact h
  exact ⟨⟨_, hmem2, fle_refl _ hrnan⟩, hall⟩

lemma foldl_jsMax_negInf_isMax (l : List F) (hne : l ≠ [])
    (hnan : ∀ x ∈ l, x ≠ F.nan) :
    isMaxOf (l.foldl jsMax F.negInf) l := by
  obtain ⟨hmem, _, hall⟩ :=
    foldl_jsMax_spec l F.negInf (by simp) hnan
  have hrnan : l.foldl jsMax F.negInf ≠ F.nan := by
    rcases hmem with h | h
    · rw [h]; simp
    · exact hnan _ h
  have hmem2 : l.foldl jsMax F.negInf ∈ l := by
    rcases hmem with h | h
    · match l, hne with
      | c :: t, _ =>
        have hc := hall c (by simp)
        rw [h] at hc ⊢
        rw [eq_negInf_of_fle hc] at *
        simp
    · exact h
  exact ⟨⟨_, hmem2, fle_refl _ hrnan⟩, hall⟩

lemma foldl_jsMin_posInf_ne (l : List F) (hnan : ∀ x ∈ l, x ≠ F.nan)
    (hex : ∃ c ∈ l, c ≠ F.posInf) :
    l.foldl jsMin F.posInf ≠ F.posInf := by
  obtain ⟨c, hc, hcne⟩ := hex
  obtain ⟨_, _, hall⟩ := foldl_jsMin_spec l F.posInf (by simp) hnan
  intro hcon
  have := hall c hc
  rw [hcon] at this
  exact hcne (eq_posInf_of_fle this)

lemma foldl_scanStep_eq (vs : List (F × F × F)) :
    ∀ acc : BBox, vs.foldl scanStep acc =
      ⟨(vs.map fun v => v.1).foldl jsMin acc.min0,
       (vs.map fun v => v.2.1).foldl jsMin acc.min1,
       (vs.map fun v => v.2.2).foldl jsMin acc.min2,
       (vs.map fun v => v.1).foldl jsMax acc.max0,
       (vs.map fun v => v.2.1).foldl jsMax acc.max1,
       (vs.map fun v => v.2.2).foldl jsMax acc.max2⟩ := by
  induction vs with
  | nil => intro acc; rfl
  | cons v t ih =>
    intro acc
    simp only [List.foldl_cons, List.map_cons]
    rw [ih]
    rfl

lemma scanAcc_eq (buf : Buf) (n : Nat) :
    scanAcc buf n =
      ⟨(xCoords buf n).foldl jsMin F.posInf,
       (yCoords buf n).foldl jsMin F.posInf,
       (zCoords buf n).foldl jsMin F.posInf,
       (xCoords buf n).foldl jsMax F.negInf,
       (yCoords buf n).foldl jsMax F.negInf,
       (zCoords buf n).foldl jsMax F.negInf⟩ := by
  unfold scanAcc xCoords yCoords zCoords
  exact foldl_scanStep_eq (vertexList buf n) initBox

lemma vertexList_length (buf : Buf) (n : Nat) :
    (vertexList buf n).length = 3 * n := by
  induction n with
  | zero => rfl
  | succ m ih =>
    unfold vertexList at ih ⊢
    rw [List.range_succ, List.flatMap_append, List.length_append, ih]
    simp [Nat.mul_succ]

lemma xCoords_ne_nil (buf : Buf) (n : Nat) (h : 0 < n) :
    xCoords buf n ≠ [] := by
  have : (xCoords buf n).length = 3 * n := by
    unfold xCoords
    rw [List.length_map, vertexList_length]
  intro hcon
  rw [hcon] at this
  simp at this
  omega

lemma yCoords_ne_nil (buf : Buf) (n : Nat) (h : 0 < n) :
    yCoords buf n ≠ [] := by
  have : (yCoords buf n).length = 3 * n := by
    unfold yCoords
    rw [List.length_map, vertexList_length]
  intro hcon
  rw [hcon] at this
  simp at this
  omega

lemma zCoords_ne_nil (buf : Buf) (n : Nat) (h : 0 < n) :
    zCoords buf n ≠ [] := by
  have : (zCoords buf n).length = 3 * n := by
    unfold zCoords
    rw [List.length_map, vertexList_length]
  intro hcon
  rw [hcon] at this
  simp at this
  omega

lemma parse_eq_scanAcc (buf : Buf)
    (h1 : 0 < readUInt32LE buf 80)
    (h2 : 84 + readUInt32LE buf 80 * 50 ≤ buf.length)
    (hmin : (scanAcc buf (readUInt32LE buf 80)).min0 ≠ F.posInf) :
    parseStlBoundingBox buf = scanAcc buf (readUInt32LE buf 80) := by
  have h84 : 84 ≤ buf.length := le_trans (Nat.le_add_right 84 _) h2
  unfold parseStlBoundingBox
  rw [if_pos h84, if_pos ⟨h1, h2⟩]
  exact if_pos hmin

/-- C2 (amended): for every buffer that is a well-formed Encoding-A mesh
(little-endian 32-bit triangle count at least 1 at offset 80, buffer
length at least 84 + 50 n, each 50-byte record holding a normal then
three vertices as little-endian float32), provided no visited coordinate
decodes to NaN and not every first-axis coordinate decodes to positive
infinity, `parseStlBoundingBox` returns a bounding box whose per-axis min
and max equal the true minimum and maximum over all visited vertex
coordinates, each coordinate being the exact float32 value stored in the
record. -/
theorem c2_encodingA_bbox_exact (buf : Buf)
    (h1 : 1 ≤ readUInt32LE buf 80)
    (h2 : 84 + readUInt32LE buf 80 * 50 ≤ buf.length)
    (hx : ∀ c ∈ xCoords buf (readUInt32LE buf 80), c ≠ F.nan)
    (hy : ∀ c ∈ yCoords buf (readUInt32LE buf 80), c ≠ F.nan)
    (hz : ∀ c ∈ zCoords buf (readUInt32LE buf 80), c ≠ F.nan)
    (hinf : ∃ c ∈ xCoords buf (readUInt32LE buf 80), c ≠ F.posInf) :
    isMinOf (parseStlBoundingBox buf).min0 (xCoords buf (readUInt32LE buf 80)) ∧
    isMinOf (parseStlBoundingBox buf).min1 (yCoords buf (readUInt32LE buf 80)) ∧
    isMinOf (parseStlBoundingBox buf).min2 (zCoords buf (readUInt32LE buf 80)) ∧
    isMaxOf (parseStlBoundingBox buf).max0 (xCoords buf (readUInt32LE buf 80)) ∧
    isMaxOf (parseStlBoundingBox buf).max1 (yCoords buf (readUInt32LE buf 80)) ∧
    isMaxOf (parseStlBoundingBox buf).max2 (zCoords buf (readUInt32LE buf 80)) := by
  have h1p : 0 < readUInt32LE buf 80 := h1
  have hxe := xCoords_ne_nil buf _ h1p
  have hye := yCoords_ne_nil buf _ h1p
  have hze := zCoords_ne_nil buf _ h1p
  have hse := scanAcc_eq buf (readUInt32LE buf 80)
  have hguard : (scanAcc buf (readUInt32LE buf 80)).min0 ≠ F.posInf := by
    rw [hse]
    exact foldl_jsMin_posInf_ne _ hx hinf
  have hp := parse_eq_scanAcc buf h1p h2 hguard
  rw [hp, hse]
  exact ⟨foldl_jsMin_posInf_isMin _ hxe hx,
    foldl_jsMin_posInf_isMin _ hye hy,
    foldl_jsMin_posInf_isMin _ hze hz,
    foldl_jsMax_negInf_isMax _ hxe hx,
    foldl_jsMax_negInf_isMax _ hye hy,
    foldl_jsMax_negInf_isMax _ hze hz⟩

/-- C2 (counterexample): `stlInfHeader9` is a well-formed Encoding-A mesh
with one triangle, yet the returned second-axis minimum is not the true
minimum of the second-axis coordinates: every y coordinate is 10.0, but
the header text pollutes the result with a 9 after the scan falls
through. -/
theorem c2_counterexample :
    1 ≤ readUInt32LE stlInfHeader9 80 ∧
    84 + readUInt32LE stlInfHeader9 80 * 50 ≤ stlInfHeader9.length ∧
    ¬ isMinOf (parseStlBoundingBox stlInfHeader9).min1
        (yCoords stlInfHeader9 (readUInt32LE stlInfHeader9 80)) := by decide

/-- C2 (witness): the amended theorem applied to a concrete one-triangle
mesh with vertices (1,2,3), (4,5,6), (7,8,9). -/
theorem c2_witness :
    isMinOf (parseStlBoundingBox stlWitnessBuf).min0
        (xCoords stlWitnessBuf (readUInt32LE stlWitnessBuf 80)) ∧
    isMinOf (parseStlBoundingBox stlWitnessBuf).min1
        (yCoords stlWitnessBuf (readUInt32LE stlWitnessBuf 80)) ∧
    isMinOf (parseStlBoundingBox stlWitnessBuf).min2
        (zCoords stlWitnessBuf (readUInt32LE stlWitnessBuf 80)) ∧
    isMaxOf (parseStlBoundingBox stlWitnessBuf).max0
        (xCoords stlWitnessBuf (readUInt32LE stlWitnessBuf 80)) ∧
    isMaxOf (parseStlBoundingBox stlWitnessBuf).max1
        (yCoords stlWitnessBuf (readUInt32LE stlWitnessBuf 80)) ∧
    isMaxOf (parseStlBoundingBox stlWitnessBuf).max2
        (zCoords stlWitnessBuf (readUInt32LE stlWitnessBuf 80)) :=
  c2_encodingA_bbox_exact stlWitnessBuf (by decide) (by decide) (by decide)
    (by decide) (by decide) (by decide)

/-- C3 (amended): for every buffer on which the Encoding-A scan runs
(declared triangle count nonzero and the size check passes, hence at
least one vertex is visited), provided the running x-minimum left by the
scan is not the `Infinity` sentinel — equivalently, not every visited
x-coordinate is positive infinity — `parseStlBoundingBox` returns the
result of that scan immediately and the text fallback never runs. -/
theorem c3_binary_short_circuit (buf : Buf)
    (h : scanRunsA buf)
    (hmin : (scanAcc buf (readUInt32LE buf 80)).min0 ≠ F.posInf) :
    parseStlBoundingBox buf = scanAcc buf (readUInt32LE buf 80) :=
  parse_eq_scanAcc buf h.2.1 h.2.2 hmin

/-- C3 (counterexample): on `stlInfHeader7` the Encoding-A scan runs and
visits nine vertices, yet the function does not return the scan result:
the text fallback also runs and folds a phantom header vertex into the
returned bounds. -/
theorem c3_counterexample :
    scanRunsA stlInfHeader7 ∧
    parseStlBoundingBox stlInfHeader7 ≠
      scanAcc stlInfHeader7 (readUInt32LE stlInfHeader7 80) := by decide

/-- C3 (witness): the amended theorem applied to the concrete
one-triangle mesh. -/
theorem c3_witness :
    parseStlBoundingBox stlWitnessBuf =
      scanAcc stlWitnessBuf (readUInt32LE stlWitnessBuf 80) :=
  c3_binary_short_circuit stlWitnessBuf (by decide) (by decide)

/-- C1: if the active model is a compiled source and the watch-triggered
recompilation fails, `handleFileChange` leaves the whole Active Model
State (source path, artifact buffer, bounding box) exactly as it was,
emits exactly one error-kind broadcast carrying the compiler diagnostic
(in particular no model-updated broadcast), and nonetheless recomputes
and reinstalls the watch set from the current source file. -/
theorem c1_failed_recompile_preserves_state (env : Env) (now : Nat)
    (st : ServerState) (f d : String)
    (hf : st.currentFile = some f)
    (hscad : lowerExt f = ".scad")
    (hc : env.compileOut f = some d) :
    handleFileChange env now st =
      ({ st with watcher := some (watchSet env f) }, [Event.errorMsg d]) := by
  simp [handleFileChange, hf, hscad, hfcAfterCompile, compileScad, hc]

/-- C1 (witness): the theorem applied to the concrete failing source. -/
theorem c1_witness :
    handleFileChange envW 7 stBad =
      ({ stBad with watcher := some (watchSet envW "/m/bad.scad") },
        [Event.errorMsg "ERROR: syntax error"]) :=
  c1_failed_recompile_preserves_state envW 7 stBad "/m/bad.scad"
    "ERROR: syntax error" rfl (by decide) rfl

/-- C4: `openFile` fails exactly on the four conditions, with exactly the
corresponding message — nonexistent path, unsupported extension, tool
unavailable for a compiled source, compilation failure (diagnostic
verbatim) — and in every other case succeeds with the record
`success / file / fileSize / boundingBox`.  The six cases below are
exhaustive and mutually exclusive. -/
theorem c4_open_failure_taxonomy (env : Env) (now : Nat) (st : ServerState)
    (p : String) :
    (env.files (env.resolvePath p) = none →
      (openFile env now st p).1 =
        Except.error ("File not found: " ++ env.resolvePath p)) ∧
    (∀ src, env.files (env.resolvePath p) = some src →
      lowerExt (env.resolvePath p) ≠ ".scad" →
      lowerExt (env.resolvePath p) ≠ ".stl" →
      (openFile env now st p).1 =
        Except.error ("Unsupported file type: " ++ lowerExt (env.resolvePath p) ++
          ". Only .scad and .stl are supported.")) ∧
    (∀ src, env.files (env.resolvePath p) = some src →
      lowerExt (env.resolvePath p) = ".scad" → env.scadOk = false →
      (openFile env now st p).1 =
        Except.error "OpenSCAD is not installed or not found on $PATH") ∧
    (∀ src d, env.files (env.resolvePath p) = some src →
      lowerExt (env.resolvePath p) = ".scad" → env.scadOk = true →
      env.compileOut (env.resolvePath p) = some d →
      (openFile env now st p).1 =
        Except.error ("OpenSCAD compilation failed:\n" ++ d)) ∧
    (∀ src, env.files (env.resolvePath p) = some src →
      lowerExt (env.resolvePath p) = ".scad" → env.scadOk = true →
      env.compileOut (env.resolvePath p) = none →
      (openFile env now st p).1 =
        Except.ok ⟨true, env.resolvePath p, src.length,
          parseStlBoundingBox ((env.files (tmpStlPath env now)).getD [])⟩) ∧
    (∀ src, env.files (env.resolvePath p) = some src →
      lowerExt (env.resolvePath p) = ".stl" →
      (openFile env now st p).1 =
        Except.ok ⟨true, env.resolvePath p, src.length,
          parseStlBoundingBox src⟩) := by
  refine ⟨?_, ?_, ?_, ?_, ?_, ?_⟩
  · intro h
    simp [openFile, h]
  · intro src hsome hns hnt
    simp [openFile, hsome, hns, hnt]
  · intro src hsome hscad hok
    simp [openFile, hsome, hscad, hok]
  · intro src d hsome hscad hok hcomp
    simp [openFile, hsome, hscad, hok, compileScad, hcomp]
  · intro src hsome hscad hok hcomp
    simp [openFile, hsome, hscad, hok, compileScad, hcomp]
  · intro src hsome hstl
    simp [openFile, hsome, hstl]

/-- C4 (witness): the not-found case at a concrete path. -/
theorem c4_witness :
    (openFile envW 7 st0 "/missing.scad").1 =
      Except.error "File not found: /missing.scad" :=
  (c4_open_failure_taxonomy envW 7 st0 "/missing.scad").1 rfl

/-- C10: `openFile` is atomic on every failure outcome — whenever it
returns a thrown error, the module state (current file, artifact buffer,
bounding box, watch set) is exactly what it was before the call, and no
broadcast is emitted. -/
theorem c10_open_atomic_on_failure (env : Env) (now : Nat) (st : ServerState)
    (p : String) (e : String)
    (h : (openFile env now st p).1 = Except.error e) :
    (openFile env now st p).2.1 = st ∧ (openFile env now st p).2.2 = [] := by
  unfold openFile at h ⊢
  rcases hf : env.files (env.resolvePath p) with _ | src
  · simp [hf]
  · simp only [hf] at h ⊢
    by_cases hext : lowerExt (env.resolvePath p) ≠ ".scad" ∧
        lowerExt (env.resolvePath p) ≠ ".stl"
    · simp [hext]
    · by_cases hscad : lowerExt (env.resolvePath p) = ".scad"
      · rcases hok : env.scadOk with _ | _
        · simp [hext, hscad, hok]
        · rcases hcomp : env.compileOut (env.resolvePath p) with _ | d
          · simp [hext, hscad, hok, compileScad, hcomp] at h
          · simp [hext, hscad, hok, compileScad, hcomp]
      · have hstl : lowerExt (env.resolvePath p) = ".stl" := by tauto
        simp [hext, hscad, hstl] at h

/-- C10 (witness): the compilation-failure case leaves the state and the
broadcast list untouched at a concrete input. -/
theorem c10_witness :
    (openFile envW 7 stW "/m/bad.scad").2.1 = stW ∧
    (openFile envW 7 stW "/m/bad.scad").2.2 = [] :=
  c10_open_atomic_on_failure envW 7 stW "/m/bad.scad"
    "OpenSCAD compilation failed:\nERROR: syntax error" rfl

lemma reqStep_absorbed (s : ReqState) (h1 : s.pending = false)
    (h2 : s.timerOn = false) (ev : ReqEvent) : reqStep s ev = s := by
  cases ev <;> simp [reqStep, h1, h2]

lemma reqRun_absorbed (s : ReqState) (h1 : s.pending = false)
    (h2 : s.timerOn = false) (evs : List ReqEvent) : reqRun s evs = s := by
  unfold reqRun
  induction evs with
  | nil => rfl
  | cons e t ih => rw [List.foldl_cons, reqStep_absorbed s h1 h2 e]; exact ih

/-- C5: for a pending request entry, whichever of a matching inbound
message or the timer firing occurs first removes the entry from the
table, disarms the timer, and completes the promise exactly once with the
corresponding outcome (the payload on a response, the distinct timeout
failure on the timer); every later event — in particular an inbound
message whose identifier is no longer in the table — leaves the state
unchanged. -/
theorem c5_first_completion_wins (e : ReqEvent) (evs : List ReqEvent) :
    reqRun reqInit (e :: evs) = reqRun reqInit [e] ∧
    reqRun reqInit [e] = ⟨false, false, some (reqOutcomeOf e)⟩ := by
  have h1 : (reqStep reqInit e).pending = false := by cases e <;> rfl
  have h2 : (reqStep reqInit e).timerOn = false := by cases e <;> rfl
  constructor
  · exact reqRun_absorbed (reqStep reqInit e) h1 h2 evs
  · cases e <;> rfl

/-- C6: when no connected client has a ready transport, `sendAndWait`
rejects immediately with the no-browser failure, and afterwards the
pending-request table is exactly what it was: the freshly assigned
identifier is not registered in it. -/
theorem c6_no_ready_peer (clients : List Nat) (counter : Nat)
    (table : List Nat)
    (hready : ∀ c ∈ clients, c ≠ 1)
    (hfresh : counter + 1 ∉ table) :
    sendAndWait clients counter table =
      (SendOutcome.rejectedNoBrowser "No browser connected", counter + 1,
        table) ∧
    counter + 1 ∉ (sendAndWait clients counter table).2.2 := by
  have hfind : clients.find? (fun c => c == 1) = none := by
    rw [List.find?_eq_none]
    intro x hx
    simpa using hready x hx
  have hdel : tableDelete (tableInsert table (counter + 1)) (counter + 1) =
      table := by
    unfold tableInsert tableDelete
    rw [if_neg hfresh]
    have hall : ∀ x ∈ table, (x != counter + 1) = true := by
      intro x hx
      rw [bne_iff_ne]
      rintro rfl
      exact hfresh hx
    simp [List.filter_cons, List.filter_eq_self.mpr hall]
  have hmain : sendAndWait clients counter table =
      (SendOutcome.rejectedNoBrowser "No browser connected", counter + 1,
        table) := by
    simp [sendAndWait, hfind, hdel]
  exact ⟨hmain, by rw [hmain]; exact hfresh⟩

/-- C6 (witness): two clients, neither ready, a nonempty table. -/
theorem c6_witness :
    sendAndWait [0, 3] 5 [2] =
      (SendOutcome.rejectedNoBrowser "No browser connected", 5 + 1, [2]) ∧
    5 + 1 ∉ (sendAndWait [0, 3] 5 [2]).2.2 :=
  c6_no_ready_peer [0, 3] 5 [2] (by decide) (by decide)

lemma digitVal_digitChar (m : Nat) (h : m < 10) :
    digitVal (digitChar m) = m := by
  interval_cases m <;> decide

lemma digitsToNat_append (cs : List Char) (c : Char) :
    digitsToNat (cs ++ [c]) = digitsToNat cs * 10 + digitVal c := by
  simp [digitsToNat, List.foldl_append]

lemma digitsToNat_natDigitsAux :
    ∀ fuel n, n < fuel → digitsToNat (natDigitsAux fuel n) = n := by
  intro fuel
  induction fuel with
  | zero => intro n h; omega
  | succ f ih =>
    intro n h
    unfold natDigitsAux
    by_cases h10 : n < 10
    · rw [if_pos h10]
      simp [digitsToNat, digitVal_digitChar n h10]
    · rw [if_neg h10]
      have hdiv : n / 10 < n := Nat.div_lt_self (by omega) (by omega)
      rw [digitsToNat_append, ih (n / 10) (by omega),
        digitVal_digitChar (n % 10) (by omega)]
      omega

lemma digitsToNat_natDigits (n : Nat) : digitsToNat (natDigits n) = n :=
  digitsToNat_natDigitsAux (n + 1) n (by omega)

lemma natDigits_injective {a b : Nat} (h : natDigits a = natDigits b) :
    a = b := by
  calc a = digitsToNat (natDigits a) := (digitsToNat_natDigits a).symm
  _ = digitsToNat (natDigits b) := by rw [h]
  _ = b := digitsToNat_natDigits b

/-- C7 (amended): two invocations of `compileScad` that observe distinct
`Date.now()` values write to distinct temporary artifact paths; the path
is a function of the millisecond timestamp alone, so invocations within
the same millisecond share it. -/
theorem c7_fresh_tmp_per_timestamp (env : Env) (t1 t2 : Nat) (h : t1 ≠ t2) :
    tmpStlPath env t1 ≠ tmpStlPath env t2 := by
  intro heq
  apply h
  apply natDigits_injective
  unfold tmpStlPath natToString at heq
  have hdata := congrArg String.data heq
  simp only [String.data_append, List.append_assoc] at hdata
  have h1 := List.append_cancel_left hdata
  have h2 := List.append_cancel_left h1
  exact List.append_cancel_right h2

/-- C7 (counterexample): it is not the case that any two invocations get
distinct output paths — two invocations observing the same millisecond
timestamp collide. -/
theorem c7_counterexample :
    ¬ (∀ t1 t2 : Nat, tmpStlPath envTmp t1 ≠ tmpStlPath envTmp t2) :=
  fun h => h 0 0 rfl

/-- C7 (witness): distinct timestamps yield distinct paths. -/
theorem c7_witness : tmpStlPath envTmp 0 ≠ tmpStlPath envTmp 1 :=
  c7_fresh_tmp_per_timestamp envTmp 0 1 (by decide)

lemma debounceRun_chain (l : List Nat) :
    ∀ t : Nat, List.Chain' (fun a b => a < b ∧ b < a + 300) (t :: l) →
      debounceRun (some (t + 300)) l = [l.getLastD t + 300] := by
  induction l with
  | nil => intro t _; rfl
  | cons u us ih =>
    intro t hch
    obtain ⟨hr, htail⟩ := List.chain'_cons.mp hch
    unfold debounceRun
    rw [if_neg (by omega), ih u htail, List.getLastD_cons]

/-- C8: change events are coalesced with the fixed 300 ms quiet window:
along any strictly increasing burst of change times in which each event
arrives within 300 ms of the previous one, every event resets the window
and the resynchronization handler runs exactly once, 300 ms after the
last event; in particular two changes within one window trigger exactly
one resynchronization. -/
theorem c8_debounce_coalesces (t : Nat) (l : List Nat)
    (h : List.Chain' (fun a b => a < b ∧ b < a + 300) (t :: l)) :
    debounceFires (t :: l) = [l.getLastD t + 300] := by
  have hstep : debounceFires (t :: l) = debounceRun (some (t + 300)) l := rfl
  rw [hstep, debounceRun_chain l t h]

/-- C8 (witness): two changes 100 ms apart produce exactly one handler
run, 300 ms after the second change. -/
theorem c8_witness : debounceFires [0, 100] = [400] :=
  c8_debounce_coalesces 0 [100]
    (List.chain'_cons.mpr ⟨⟨by omega, by omega⟩, List.chain'_singleton 100⟩)

/-- C9: the code does not serialize a watch-triggered resynchronization
against a fresh open.  Concrete trace: `handleFileChange` for the
compiled source starts and suspends at its compile; a full `openFile` of
`/b.stl` then installs the new model (buffer 66); the suspended handler
resumes and commits its stale artifact (buffer 65) over it.  The final
state serves the stale buffer under the new current file instead of
discarding the stale result. -/
theorem c9_stale_resync_overwrites :
    (syncRun envC9 1000 ⟨st0C9, none⟩
        [SyncAct.hfcStart, SyncAct.openRun "/b.stl",
          SyncAct.hfcResume]).server.currentFile = some "/b.stl" ∧
    ((openFile envC9 1000 st0C9 "/b.stl").2.1).currentStlBuffer =
      some [66] ∧
    (syncRun envC9 1000 ⟨st0C9, none⟩
        [SyncAct.hfcStart, SyncAct.openRun "/b.stl",
          SyncAct.hfcResume]).server.currentStlBuffer = some [65] := by
  refine ⟨by decide, by decide, by decide⟩

end OpenscadViewer
